import Mathlib

/-!
Verification of the traffic-studies metric pipeline.

This file gives a shallow embedding in Lean of the parts of the repository
that the verified properties are about:

* `src/utils/metrics.py` — `calculate_weighted_speed`, `calculate_compliance`,
  `calculate_85th_percentile_speed`, `calculate_adt`, `_get_core_metrics_impl`;
* `src/utils/transformers/traffic_transformer.py` — `calculate_speed_compliance`,
  `filter_zero_traffic`;
* `src/utils/data_loader.py` / `src/utils/parsers/traffic_parser.py` —
  `detect_file_structure`, `map_columns` and the failure handling in `load_data`.

Speed-bin column names such as `"25-29 MPH - Northbound"` or `"45+ MPH -
Southbound"` are represented by their parse result (`SpeedBin`): every metric
function in the source first extracts the part before `"MPH"` and then branches
on whether it contains a `"+"`, splits on `"-"`, and converts to float; a
`ValueError`/`IndexError` makes the function skip the column, which we model by
`Option SpeedBin` with `none` for an unparseable name.  The numbers parsed from
column names are small decimal literals, and the Python float comparisons and
rational operations the metrics perform on them are exact at these magnitudes,
so they are modelled by `ℚ`.  Vehicle counts are modelled by `ℕ` (they are
sums of CSV count cells; the validator rejects negative counts).
-/

namespace TrafficStudies

/-- Parse result of a speed-bin column name, as produced by the shared
string-splitting logic in `calculate_weighted_speed`, `calculate_compliance`,
`calculate_speed_compliance` and `calculate_85th_percentile_speed`:
`range lo hi` for `"lo-hi MPH"`, `plus lo` for `"lo+ MPH"`, and `single v`
for a bare number `"v MPH"` (a split on `"-"` yielding one part). -/
inductive SpeedBin where
  | range (lo hi : ℚ)
  | plus (lo : ℚ)
  | single (v : ℚ)
deriving DecidableEq, Repr

/-- A speed column as the metric functions see it: the parse result of its
name (`none` when parsing raises and the column is skipped) together with the
column's total vehicle count `df[col].sum()`. -/
abbrev SpeedCol := Option SpeedBin × ℕ

/-- Compliance decision of `calculate_compliance` (metrics.py lines 69-90) for
a single parsed bin: an open bin is non-compliant iff its number exceeds the
limit; a closed bin is compliant iff the limit falls inside the range or the
upper bound is below the limit; a single number is compliant iff it is at most
the limit. -/
def binCompliantOverlap (b : SpeedBin) (limit : ℚ) : Bool :=
  match b with
  | .plus lo => if lo > limit then false else true
  | .range lo hi => (decide (limit ≥ lo) && decide (limit ≤ hi)) || decide (hi < limit)
  | .single v => decide (v ≤ limit)

/-- Representative speed used by the lower-bound rule of
`calculate_speed_compliance` (traffic_transformer.py lines 26-33, also inlined
in `load_data`): the literal number of an open bin, the lower bound of a
closed bin, a bare number as-is. -/
def binRep : SpeedBin → ℚ
  | .range lo _ => lo
  | .plus lo => lo
  | .single v => v

/-- Embedding of `calculate_compliance` (metrics.py lines 51-95): returns the
pair (compliant count, total count) accumulated over the parseable speed
columns; unparseable columns are skipped entirely. -/
def calculate_compliance : List SpeedCol → ℚ → ℕ × ℕ
  | [], _ => (0, 0)
  | (none, _) :: rest, limit => calculate_compliance rest limit
  | (some b, c) :: rest, limit =>
    let r := calculate_compliance rest limit
    (if binCompliantOverlap b limit then r.1 + c else r.1, r.2 + c)

/-- Embedding of the per-bin accumulation of `calculate_speed_compliance`
(traffic_transformer.py lines 23-42): returns (compliant, non-compliant)
counts, a bin being compliant exactly when its representative (lower-bound)
speed is ≤ the limit.  The source applies this rule per row to build the
`Dir*_Compliant` columns; summed over rows this is the same accumulation over
column totals. -/
def calculate_speed_compliance : List SpeedCol → ℚ → ℕ × ℕ
  | [], _ => (0, 0)
  | (none, _) :: rest, limit => calculate_speed_compliance rest limit
  | (some b, c) :: rest, limit =>
    let r := calculate_speed_compliance rest limit
    if binRep b ≤ limit then (r.1 + c, r.2) else (r.1, r.2 + c)

/-- Well-formedness of the closed bins occurring in a column list: every
parsed `"lo-hi"` bin has `lo ≤ hi`. -/
def WellFormedCols (cols : List SpeedCol) : Prop :=
  ∀ lo hi c, (some (SpeedBin.range lo hi), c) ∈ cols → lo ≤ hi

lemma binCompliantOverlap_iff (b : SpeedBin) (limit : ℚ)
    (h : ∀ lo hi, b = SpeedBin.range lo hi → lo ≤ hi) :
    binCompliantOverlap b limit = true ↔ binRep b ≤ limit := by
  cases b with
  | range lo hi =>
    have hle : lo ≤ hi := h lo hi rfl
    simp only [binCompliantOverlap, binRep, Bool.or_eq_true, Bool.and_eq_true,
      decide_eq_true_eq, ge_iff_le]
    constructor
    · rintro (⟨h1, _⟩ | h2)
      · exact h1
      · linarith
    · intro hlo
      by_cases hhi : limit ≤ hi
      · exact Or.inl ⟨hlo, hhi⟩
      · exact Or.inr (by linarith)
  | plus lo =>
    simp only [binCompliantOverlap, binRep]
    by_cases hgt : lo > limit
    · rw [if_pos hgt]
      have hn : ¬ lo ≤ limit := not_le_of_lt hgt
      simp [hn]
    · rw [if_neg hgt]
      have hy : lo ≤ limit := le_of_not_lt hgt
      simp [hy]
  | single v =>
    simp [binCompliantOverlap, binRep]

/-- Claim C1: for every speed limit and every column list whose closed bins are
well-formed (`lo ≤ hi`), the range-overlap branching of `calculate_compliance`
produces exactly the same compliant count as the lower-bound rule of
`calculate_speed_compliance`; in particular a closed bin `"lo-hi"` with
`lo ≤ hi` is classified compliant exactly when `lo ≤ limit`, and an open bin
`"lo+"` exactly when `lo ≤ limit`. -/
theorem compliance_overlap_matches_lower_bound (limit : ℚ) (cols : List SpeedCol)
    (hwf : WellFormedCols cols) :
    (calculate_compliance cols limit).1 = (calculate_speed_compliance cols limit).1 ∧
    (∀ lo hi : ℚ, lo ≤ hi →
      (binCompliantOverlap (SpeedBin.range lo hi) limit = true ↔ lo ≤ limit)) ∧
    (∀ lo : ℚ, binCompliantOverlap (SpeedBin.plus lo) limit = true ↔ lo ≤ limit) := by
  refine ⟨?_, ?_, ?_⟩
  · induction cols with
    | nil => rfl
    | cons hd tl ih =>
      have htl : WellFormedCols tl := fun lo hi c hm => hwf lo hi c (List.mem_cons_of_mem _ hm)
      obtain ⟨ob, c⟩ := hd
      cases ob with
      | none =>
        simpa [calculate_compliance, calculate_speed_compliance] using ih htl
      | some b =>
        have hb : ∀ lo hi, b = SpeedBin.range lo hi → lo ≤ hi := by
          intro lo hi hbe
          exact hwf lo hi c (by rw [hbe] at *; exact List.mem_cons_self _ _)
        have hiff := binCompliantOverlap_iff b limit hb
        simp only [calculate_compliance, calculate_speed_compliance]
        by_cases hcase : binRep b ≤ limit
        · have : binCompliantOverlap b limit = true := hiff.mpr hcase
          simp [this, hcase, ih htl]
        · have hfalse : binCompliantOverlap b limit = false := by
            cases hov : binCompliantOverlap b limit with
            | false => rfl
            | true => exact absurd (hiff.mp hov) hcase
          simp [hfalse, hcase, ih htl]
  · intro lo hi hle
    exact binCompliantOverlap_iff (SpeedBin.range lo hi) limit
      (by intro a b h; cases h; exact hle)
  · intro lo
    exact binCompliantOverlap_iff (SpeedBin.plus lo) limit (by intro a b h; cases h)

/-- Witness for C1 at limit 30 and the bins `"25-29"`, `"30-34"`, `"45+"`. -/
theorem compliance_overlap_matches_lower_bound_witness :
    (calculate_compliance
        [(some (SpeedBin.range 25 29), 10), (some (SpeedBin.range 30 34), 5),
         (some (SpeedBin.plus 45), 2)] 30).1 =
      (calculate_speed_compliance
        [(some (SpeedBin.range 25 29), 10), (some (SpeedBin.range 30 34), 5),
         (some (SpeedBin.plus 45), 2)] 30).1 :=
  (compliance_overlap_matches_lower_bound 30
    [(some (SpeedBin.range 25 29), 10), (some (SpeedBin.range 30 34), 5),
     (some (SpeedBin.plus 45), 2)]
    (by
      intro lo hi c hm
      simp only [List.mem_cons, List.mem_singleton, Prod.mk.injEq,
        Option.some.injEq, SpeedBin.range.injEq] at hm
      rcases hm with ⟨⟨h1, h2⟩, _⟩ | ⟨⟨h1, h2⟩, _⟩ | h
      · rw [h1, h2]; norm_num
      · rw [h1, h2]; norm_num
      · simp at h)).1

/-- Compliance rate as computed by `_get_core_metrics_impl` (metrics.py lines
339-344) from the two `calculate_compliance` results: compliant count divided
by the total parseable-bin count, times 100, guarded to 0 when the total is 0.
Concatenating the two directions' column lists gives the same counts as
summing the two per-direction calls, so a single column list is used. -/
def complianceRate (cols : List SpeedCol) (limit : ℚ) : ℚ :=
  let r := calculate_compliance cols limit
  if 0 < r.2 then (r.1 : ℚ) / (r.2 : ℚ) * 100 else 0

lemma calculate_compliance_total_const (cols : List SpeedCol) (l1 l2 : ℚ) :
    (calculate_compliance cols l1).2 = (calculate_compliance cols l2).2 := by
  induction cols with
  | nil => rfl
  | cons hd tl ih =>
    obtain ⟨ob, c⟩ := hd
    cases ob with
    | none => simpa [calculate_compliance] using ih
    | some b => simp [calculate_compliance, ih]

lemma binCompliantOverlap_mono {b : SpeedBin} {l1 l2 : ℚ} (h : l1 ≤ l2)
    (hc : binCompliantOverlap b l1 = true) : binCompliantOverlap b l2 = true := by
  cases b with
  | range lo hi =>
    simp only [binCompliantOverlap, Bool.or_eq_true, Bool.and_eq_true,
      decide_eq_true_eq, ge_iff_le] at hc ⊢
    rcases hc with ⟨h1, h2⟩ | h3
    · by_cases hcase : l2 ≤ hi
      · exact Or.inl ⟨le_trans h1 h, hcase⟩
      · exact Or.inr (lt_of_not_le hcase)
    · exact Or.inr (lt_of_lt_of_le h3 h)
  | plus lo =>
    simp only [binCompliantOverlap] at hc ⊢
    by_cases hgt : lo > l2
    · rw [if_pos (by linarith : lo > l1)] at hc
      exact absurd hc (by simp)
    · rw [if_neg hgt]
  | single v =>
    simp only [binCompliantOverlap, decide_eq_true_eq] at hc ⊢
    linarith

lemma calculate_compliance_mono (cols : List SpeedCol) {l1 l2 : ℚ} (h : l1 ≤ l2) :
    (calculate_compliance cols l1).1 ≤ (calculate_compliance cols l2).1 := by
  induction cols with
  | nil => exact le_rfl
  | cons hd tl ih =>
    obtain ⟨ob, c⟩ := hd
    cases ob with
    | none => simpa [calculate_compliance] using ih
    | some b =>
      simp only [calculate_compliance]
      by_cases h1 : binCompliantOverlap b l1 = true
      · rw [if_pos h1, if_pos (binCompliantOverlap_mono h h1)]
        exact Nat.add_le_add_right ih c
      · rw [if_neg h1]
        by_cases h2 : binCompliantOverlap b l2 = true
        · rw [if_pos h2]
          exact le_trans ih (Nat.le_add_right _ c)
        · rw [if_neg h2]
          exact ih

lemma calculate_compliance_le_total (cols : List SpeedCol) (l : ℚ) :
    (calculate_compliance cols l).1 ≤ (calculate_compliance cols l).2 := by
  induction cols with
  | nil => exact le_rfl
  | cons hd tl ih =>
    obtain ⟨ob, c⟩ := hd
    cases ob with
    | none => simpa [calculate_compliance] using ih
    | some b =>
      simp only [calculate_compliance]
      by_cases h1 : binCompliantOverlap b l = true
      · rw [if_pos h1]; exact Nat.add_le_add_right ih c
      · rw [if_neg h1]; exact le_trans ih (Nat.le_add_right _ c)

/-- Claim C2: for a fixed column list, the compliance rate computed from
`calculate_compliance` never decreases when the speed limit is raised. -/
theorem complianceRate_mono_in_limit (cols : List SpeedCol) (l1 l2 : ℚ)
    (h : l1 ≤ l2) : complianceRate cols l1 ≤ complianceRate cols l2 := by
  unfold complianceRate
  have htot : (calculate_compliance cols l1).2 = (calculate_compliance cols l2).2 :=
    calculate_compliance_total_const cols l1 l2
  by_cases hpos : 0 < (calculate_compliance cols l1).2
  · rw [if_pos hpos, if_pos (htot ▸ hpos)]
    rw [← htot]
    have hmono : ((calculate_compliance cols l1).1 : ℚ) ≤
        ((calculate_compliance cols l2).1 : ℚ) := by
      exact_mod_cast calculate_compliance_mono cols h
    have hden : (0 : ℚ) ≤ ((calculate_compliance cols l1).2 : ℚ) := by positivity
    gcongr
  · rw [if_neg hpos, if_neg (htot ▸ hpos)]

/-- Witness for C2 with bins `"25-29"`, `"30-34"` and limits 25 ≤ 30. -/
theorem complianceRate_mono_in_limit_witness :
    complianceRate [(some (SpeedBin.range 25 29), 10), (some (SpeedBin.range 30 34), 5)] 25 ≤
      complianceRate [(some (SpeedBin.range 25 29), 10), (some (SpeedBin.range 30 34), 5)] 30 :=
  complianceRate_mono_in_limit
    [(some (SpeedBin.range 25 29), 10), (some (SpeedBin.range 30 34), 5)] 25 30
    (by norm_num)

/-- Representative speed used by `calculate_weighted_speed` (metrics.py lines
30-40): the midpoint `(lo+hi)/2` of a closed bin, `lo + 2.5` for an open bin,
and `(v+v)/2 = v` for a bare number (the source sets `upper = lower` when the
split on `"-"` yields one part). -/
def binMid : SpeedBin → ℚ
  | .range lo hi => (lo + hi) / 2
  | .plus lo => lo + 5 / 2
  | .single v => (v + v) / 2

/-- Accumulation loop of `calculate_weighted_speed` (metrics.py lines 26-47):
the pair (weighted sum, total count) over the parseable columns. -/
def weightedSums : List SpeedCol → ℚ × ℕ
  | [] => (0, 0)
  | (none, _) :: rest => weightedSums rest
  | (some b, c) :: rest =>
    let r := weightedSums rest
    (r.1 + binMid b * (c : ℚ), r.2 + c)

/-- Embedding of `calculate_weighted_speed` (metrics.py lines 24-48). -/
def calculate_weighted_speed (cols : List SpeedCol) : ℚ :=
  let r := weightedSums cols
  if 0 < r.2 then r.1 / (r.2 : ℚ) else 0

/-- Column sums of the C9 scenario: columns `"25-29 MPH - Northbound"` and
`"30-34 MPH - Northbound"` with per-row counts [10, 5] and [0, 20], so column
totals 10 and 25. -/
def c9cols : List SpeedCol :=
  [(some (SpeedBin.range 25 29), 10), (some (SpeedBin.range 30 34), 25)]

/-- Counterexample for C9: the weighted average speed of the scenario is
1070/35 ≈ 30.57, not ≈ 22.0 as the claim (quoting the spec) states; the value
is larger than 30, so it is not approximately 22 under any tolerance that
distinguishes the spec's own example values. -/
theorem weighted_speed_not_22 :
    calculate_weighted_speed c9cols ≠ 22 ∧ 30 < calculate_weighted_speed c9cols := by
  constructor
  · intro h
    have : (1070 : ℚ) / 35 = 22 := by
      calc (1070 : ℚ) / 35 = calculate_weighted_speed c9cols := by
            simp [calculate_weighted_speed, weightedSums, c9cols, binMid]
            norm_num
        _ = 22 := h
    norm_num at this
  · have : calculate_weighted_speed c9cols = 1070 / 35 := by
      simp [calculate_weighted_speed, weightedSums, c9cols, binMid]
      norm_num
    rw [this]; norm_num

/-- Claim C9 (amended): `calculate_weighted_speed` on the scenario's column sums
returns exactly (27×10 + 32×5 + 27×0 + 32×20)/(10+5+0+20) = 1070/35 ≈ 30.57,
using midpoints for closed bins; an open bin `"N+"` gets representative
N + 2.5. -/
theorem weighted_speed_formula :
    calculate_weighted_speed c9cols = (27 * 10 + 32 * 5 + 27 * 0 + 32 * 20) / (10 + 5 + 0 + 20) ∧
    (∀ n : ℚ, binMid (SpeedBin.plus n) = n + 5 / 2) := by
  constructor
  · simp [calculate_weighted_speed, weightedSums, c9cols, binMid]
    norm_num
  · intro n; rfl

/-- Upper bound of a bin as used by `calculate_85th_percentile_speed`
(metrics.py lines 179-188): a closed bin's upper number, `lo + 5` for an open
bin (assumed 5-mph-wide final bin), and the number itself for a bare number
(the source sets `upper = lower`). -/
def binHi : SpeedBin → ℚ
  | .range _ hi => hi
  | .plus lo => lo + 5
  | .single v => v

/-- Construction of the `speed_ranges` list (metrics.py lines 176-195): one
(lower, upper, count) triple per parseable column with nonzero count. -/
def speedRanges (cols : List SpeedCol) : List (ℚ × ℚ × ℕ) :=
  cols.filterMap fun c =>
    match c.1 with
    | none => none
    | some b => if 0 < c.2 then some (binRep b, binHi b, c.2) else none

/-- Lexicographic comparison on (lower, upper, count) triples, the order used
by Python's `speed_ranges.sort()` (metrics.py line 201). -/
def rangeLe (x y : ℚ × ℚ × ℕ) : Bool :=
  decide (x.1 < y.1) ||
    (decide (x.1 = y.1) &&
      (decide (x.2.1 < y.2.1) || (decide (x.2.1 = y.2.1) && decide (x.2.2 ≤ y.2.2))))

/-- Insertion of an element into a sorted list (helper for the sort below). -/
def insertSorted (le : α → α → Bool) (x : α) : List α → List α
  | [] => [x]
  | y :: ys => if le x y then x :: y :: ys else y :: insertSorted le x ys

/-- Insertion sort; for the total orders used here it produces the same list
as Python's `list.sort()`. -/
def insertionSort (le : α → α → Bool) : List α → List α
  | [] => []
  | x :: xs => insertSorted le x (insertionSort le xs)

lemma mem_insertSorted {le : α → α → Bool} {x a : α} :
    ∀ {l : List α}, a ∈ insertSorted le x l ↔ a = x ∨ a ∈ l := by
  intro l
  induction l with
  | nil => simp [insertSorted]
  | cons y ys ih =>
    simp only [insertSorted]
    by_cases h : le x y = true
    · simp [h]
    · simp only [h, if_neg, Bool.false_eq_true, ite_false, List.mem_cons, ih]
      tauto

lemma mem_insertionSort {le : α → α → Bool} {a : α} :
    ∀ {l : List α}, a ∈ insertionSort le l ↔ a ∈ l := by
  intro l
  induction l with
  | nil => simp [insertionSort]
  | cons x xs ih =>
    simp [insertionSort, mem_insertSorted, ih]

/-- Cumulative walk of `calculate_85th_percentile_speed` (metrics.py lines
211-223): find the first range whose cumulative count reaches the target and
linearly interpolate inside it; `none` if the walk falls off the end. -/
def walk85 (target : ℚ) : ℚ → List (ℚ × ℚ × ℕ) → Option ℚ
  | _, [] => none
  | cum, (lo, hi, c) :: rest =>
    if target ≤ cum + (c : ℚ) then
      some (lo + (if 0 < c then (target - cum) / (c : ℚ) else 0) * (hi - lo))
    else walk85 target (cum + (c : ℚ)) rest

/-- Embedding of `calculate_85th_percentile_speed` (metrics.py lines 165-226):
empty column list → 0; no nonzero parseable ranges → 0; zero total → 0;
otherwise walk the sorted ranges toward the 0.85 quantile, falling back to
the last (sorted) range's upper bound. -/
def calculate_85th_percentile_speed (cols : List SpeedCol) : ℚ :=
  if cols = [] then 0
  else
    let ranges := speedRanges cols
    if ranges = [] then 0
    else
      let sorted := insertionSort rangeLe ranges
      let total : ℕ := (sorted.map fun r => r.2.2).sum
      if total = 0 then 0
      else
        let target : ℚ := (total : ℚ) * (85 / 100)
        match walk85 target 0 sorted with
        | some v => v
        | none =>
          match sorted.getLast? with
          | some r => r.2.1
          | none => 0

/-- Lower bounds of all parseable bins of a column list. -/
def lowers (cols : List SpeedCol) : List ℚ :=
  cols.filterMap fun c => c.1.map binRep

/-- Upper bounds of all parseable bins of a column list (open bins get
lo + 5). -/
def uppers (cols : List SpeedCol) : List ℚ :=
  cols.filterMap fun c => c.1.map binHi

/-- Minimum of a list of rationals (`none` on the empty list). -/
def listMinQ : List ℚ → Option ℚ
  | [] => none
  | x :: xs => some (xs.foldl min x)

/-- Maximum of a list of rationals (`none` on the empty list). -/
def listMaxQ : List ℚ → Option ℚ
  | [] => none
  | x :: xs => some (xs.foldl max x)

lemma foldl_min_le_init : ∀ (l : List ℚ) (a : ℚ), l.foldl min a ≤ a := by
  intro l
  induction l with
  | nil => intro a; exact le_rfl
  | cons x xs ih =>
    intro a
    exact le_trans (ih (min a x)) (min_le_left a x)

lemma foldl_min_le_mem : ∀ (l : List ℚ) (a x : ℚ), x ∈ l → l.foldl min a ≤ x := by
  intro l
  induction l with
  | nil => intro a x hx; simp at hx
  | cons y ys ih =>
    intro a x hx
    rcases List.mem_cons.mp hx with h | h
    · subst h
      exact le_trans (foldl_min_le_init ys (min a x)) (min_le_right a x)
    · exact ih (min a y) x h

lemma init_le_foldl_max : ∀ (l : List ℚ) (a : ℚ), a ≤ l.foldl max a := by
  intro l
  induction l with
  | nil => intro a; exact le_rfl
  | cons x xs ih =>
    intro a
    exact le_trans (le_max_left a x) (ih (max a x))

lemma mem_le_foldl_max : ∀ (l : List ℚ) (a x : ℚ), x ∈ l → x ≤ l.foldl max a := by
  intro l
  induction l with
  | nil => intro a x hx; simp at hx
  | cons y ys ih =>
    intro a x hx
    rcases List.mem_cons.mp hx with h | h
    · subst h
      exact le_trans (le_max_right a x) (init_le_foldl_max ys (max a x))
    · exact ih (max a y) x h

lemma listMinQ_le {l : List ℚ} {m x : ℚ} (hm : listMinQ l = some m) (hx : x ∈ l) :
    m ≤ x := by
  cases l with
  | nil => simp at hx
  | cons y ys =>
    simp only [listMinQ, Option.some.injEq] at hm
    subst hm
    rcases List.mem_cons.mp hx with h | h
    · subst h; exact foldl_min_le_init ys x
    · exact foldl_min_le_mem ys y x h

lemma le_listMaxQ {l : List ℚ} {m x : ℚ} (hm : listMaxQ l = some m) (hx : x ∈ l) :
    x ≤ m := by
  cases l with
  | nil => simp at hx
  | cons y ys =>
    simp only [listMaxQ, Option.some.injEq] at hm
    subst hm
    rcases List.mem_cons.mp hx with h | h
    · subst h; exact init_le_foldl_max ys x
    · exact mem_le_foldl_max ys y x h

lemma binRep_le_binHi {b : SpeedBin} (h : ∀ lo hi, b = SpeedBin.range lo hi → lo ≤ hi) :
    binRep b ≤ binHi b := by
  cases b with
  | range lo hi => exact h lo hi rfl
  | plus lo => simp only [binRep, binHi]; linarith
  | single v => exact le_rfl

lemma speedRanges_mem {cols : List SpeedCol} {r : ℚ × ℚ × ℕ}
    (h : r ∈ speedRanges cols) :
    ∃ b, (some b, r.2.2) ∈ cols ∧ r.1 = binRep b ∧ r.2.1 = binHi b ∧ 0 < r.2.2 := by
  obtain ⟨⟨ob, c⟩, hmem, hf⟩ := List.mem_filterMap.mp h
  cases ob with
  | none => simp at hf
  | some b =>
    simp only at hf
    by_cases hc : 0 < c
    · rw [if_pos hc] at hf
      injection hf with hf'
      refine ⟨b, ?_, ?_, ?_, ?_⟩
      · rw [← hf']; exact hmem
      · rw [← hf']
      · rw [← hf']
      · rw [← hf']; exact hc
    · rw [if_neg hc] at hf
      simp at hf

lemma mem_speedRanges_of_col {cols : List SpeedCol} {b : SpeedBin} {c : ℕ}
    (hmem : (some b, c) ∈ cols) (hc : 0 < c) :
    (binRep b, binHi b, c) ∈ speedRanges cols := by
  refine List.mem_filterMap.mpr ⟨(some b, c), hmem, ?_⟩
  simp [hc]

lemma walk85_bounds :
    ∀ (l : List (ℚ × ℚ × ℕ)) (cum target v : ℚ),
      walk85 target cum l = some v → cum < target →
      (∀ r ∈ l, r.1 ≤ r.2.1) →
      ∃ r ∈ l, r.1 ≤ v ∧ v ≤ r.2.1 := by
  intro l
  induction l with
  | nil => intro cum target v h; simp [walk85] at h
  | cons x rest ih =>
    intro cum target v h hcum hwf
    obtain ⟨lo, hi, c⟩ := x
    have hlohi : lo ≤ hi := (hwf (lo, hi, c) (List.mem_cons_self _ _) : _)
    simp only [walk85] at h
    by_cases hhit : target ≤ cum + (c : ℚ)
    · rw [if_pos hhit, Option.some.injEq] at h
      refine ⟨(lo, hi, c), List.mem_cons_self _ _, ?_, ?_⟩
      · rw [← h]
        have hpos : 0 ≤ (if 0 < c then (target - cum) / (c : ℚ) else 0) := by
          by_cases hc : 0 < c
          · rw [if_pos hc]
            apply div_nonneg (by linarith)
            exact_mod_cast Nat.zero_le c
          · rw [if_neg hc]
        nlinarith [mul_nonneg hpos (by linarith : (0 : ℚ) ≤ hi - lo)]
      · rw [← h]
        have hle1 : (if 0 < c then (target - cum) / (c : ℚ) else 0) ≤ 1 := by
          by_cases hc : 0 < c
          · rw [if_pos hc]
            rw [div_le_one (by exact_mod_cast hc)]
            linarith
          · rw [if_neg hc]; norm_num
        have hpos : 0 ≤ (if 0 < c then (target - cum) / (c : ℚ) else 0) := by
          by_cases hc : 0 < c
          · rw [if_pos hc]
            apply div_nonneg (by linarith)
            exact_mod_cast Nat.zero_le c
          · rw [if_neg hc]
        nlinarith [mul_le_of_le_one_left (by linarith : (0 : ℚ) ≤ hi - lo) hle1]
    · rw [if_neg hhit] at h
      have hcum' : cum + (c : ℚ) < target := lt_of_not_le hhit
      obtain ⟨r, hr, h1, h2⟩ :=
        ih (cum + (c : ℚ)) target v h hcum'
          (fun r hr => hwf r (List.mem_cons_of_mem _ hr))
      exact ⟨r, List.mem_cons_of_mem _ hr, h1, h2⟩

/-- Claim C3: for any column list whose closed bins are well-formed and which has at
least one parseable bin with a nonzero count, the 85th-percentile speed lies
within [minimum bin lower bound, maximum bin upper bound] of the supplied
bins, an open bin `"N+"` having upper bound N + 5. -/
theorem percentile85_within_bounds (cols : List SpeedCol)
    (hwf : WellFormedCols cols)
    (hnz : ∃ b c, (some b, c) ∈ cols ∧ 0 < c)
    (mn mx : ℚ) (hmn : listMinQ (lowers cols) = some mn)
    (hmx : listMaxQ (uppers cols) = some mx) :
    mn ≤ calculate_85th_percentile_speed cols ∧
      calculate_85th_percentile_speed cols ≤ mx := by
  obtain ⟨b0, c0, hmem0, hc0⟩ := hnz
  have hcols : cols ≠ [] := by
    intro h; rw [h] at hmem0; simp at hmem0
  have hr0 : (binRep b0, binHi b0, c0) ∈ speedRanges cols :=
    mem_speedRanges_of_col hmem0 hc0
  have hranges : speedRanges cols ≠ [] := by
    intro h; rw [h] at hr0; simp at hr0
  have hprops : ∀ r ∈ speedRanges cols,
      r.1 ≤ r.2.1 ∧ mn ≤ r.1 ∧ r.2.1 ≤ mx ∧ 0 < r.2.2 := by
    intro r hr
    obtain ⟨b, hbmem, h1, h2, h3⟩ := speedRanges_mem hr
    have hbwf : ∀ lo hi, b = SpeedBin.range lo hi → lo ≤ hi := by
      intro lo hi hbe
      exact hwf lo hi r.2.2 (hbe ▸ hbmem)
    refine ⟨?_, ?_, ?_, h3⟩
    · rw [h1, h2]; exact binRep_le_binHi hbwf
    · refine listMinQ_le hmn ?_
      rw [h1]
      exact List.mem_filterMap.mpr ⟨(some b, r.2.2), hbmem, rfl⟩
    · refine le_listMaxQ hmx ?_
      rw [h2]
      exact List.mem_filterMap.mpr ⟨(some b, r.2.2), hbmem, rfl⟩
  have hsortmem : ∀ r, r ∈ insertionSort rangeLe (speedRanges cols) ↔
      r ∈ speedRanges cols := fun r => mem_insertionSort
  have hr0s : (binRep b0, binHi b0, c0) ∈ insertionSort rangeLe (speedRanges cols) :=
    (hsortmem _).mpr hr0
  have htotal :
      ((insertionSort rangeLe (speedRanges cols)).map fun r => r.2.2).sum ≠ 0 := by
    intro h
    have hle : c0 ≤ ((insertionSort rangeLe (speedRanges cols)).map fun r => r.2.2).sum :=
      List.single_le_sum (fun x _ => Nat.zero_le x) c0
        (List.mem_map.mpr ⟨(binRep b0, binHi b0, c0), hr0s, rfl⟩)
    omega
  simp only [calculate_85th_percentile_speed]
  rw [if_neg hcols, if_neg hranges, if_neg htotal]
  set sorted := insertionSort rangeLe (speedRanges cols) with hsorted
  set total : ℕ := (sorted.map fun r => r.2.2).sum with htotaldef
  set target : ℚ := (total : ℚ) * (85 / 100) with htarget
  have htargetpos : 0 < target := by
    rw [htarget]
    have : 0 < total := Nat.pos_of_ne_zero htotal
    have : (0 : ℚ) < (total : ℚ) := by exact_mod_cast this
    positivity
  cases hwalk : walk85 target 0 sorted with
  | some v =>
    obtain ⟨r, hr, h1, h2⟩ :=
      walk85_bounds sorted 0 target v hwalk htargetpos
        (fun r hr => ((hprops r ((hsortmem r).mp hr)).1 : _))
    have hp := hprops r ((hsortmem r).mp hr)
    exact ⟨le_trans hp.2.1 h1, le_trans h2 hp.2.2.1⟩
  | none =>
    cases hlast : sorted.getLast? with
    | none =>
      exfalso
      have : sorted = [] := List.getLast?_eq_none_iff.mp hlast
      rw [this] at hr0s
      simp at hr0s
    | some r =>
      have hrs : r ∈ sorted := by
        obtain ⟨hne, heq⟩ :=
          List.mem_getLast?_eq_getLast (show r ∈ sorted.getLast? from hlast)
        rw [heq]
        exact List.getLast_mem hne
      have hp := hprops r ((hsortmem r).mp hrs)
      exact ⟨le_trans hp.2.1 hp.1, hp.2.2.1⟩

/-- Witness for C3 on the single bin `"25-29"` with count 10: the result lies
in [25, 29]. -/
theorem percentile85_within_bounds_witness :
    25 ≤ calculate_85th_percentile_speed [(some (SpeedBin.range 25 29), 10)] ∧
      calculate_85th_percentile_speed [(some (SpeedBin.range 25 29), 10)] ≤ 29 :=
  percentile85_within_bounds [(some (SpeedBin.range 25 29), 10)]
    (by
      intro lo hi c hm
      simp only [List.mem_singleton, Prod.mk.injEq, Option.some.injEq,
        SpeedBin.range.injEq] at hm
      obtain ⟨⟨h1, h2⟩, _⟩ := hm
      rw [h1, h2]; norm_num)
    ⟨SpeedBin.range 25 29, 10, by simp, by norm_num⟩
    25 29 rfl rfl

/-- Distinct calendar dates of a (date, Total) row list, as produced by the
`groupby("Date")` of `calculate_adt` (metrics.py lines 280-285); a date is an
abstract natural number, the Total an integer vehicle count. -/
def adtDates (rows : List (ℕ × ℕ)) : List ℕ :=
  (rows.map Prod.fst).dedup

/-- Sum of the `Total` column over the rows of one date
(`daily_totals = df_copy.groupby("Date")["Total"].sum()`). -/
def dailyTotal (rows : List (ℕ × ℕ)) (d : ℕ) : ℕ :=
  ((rows.filter fun r => decide (r.1 = d)).map Prod.snd).sum

/-- Number of hourly records of one date
(`daily_hour_counts = df_copy.groupby("Date").size()`). -/
def dailyCount (rows : List (ℕ × ℕ)) (d : ℕ) : ℕ :=
  (rows.filter fun r => decide (r.1 = d)).length

/-- Dates with at least 20 hourly records
(`complete_days = daily_totals[daily_hour_counts >= 20]`). -/
def completeDates (rows : List (ℕ × ℕ)) : List ℕ :=
  (adtDates rows).filter fun d => decide (20 ≤ dailyCount rows d)

/-- Embedding of `calculate_adt` (metrics.py lines 264-298): 0 on an empty
table; otherwise the mean of the per-date sums over the complete (≥ 20
records) dates, falling back to the mean over all dates when no date is
complete.  A pandas mean is the sum divided by the number of entries. -/
def calculate_adt (rows : List (ℕ × ℕ)) : ℚ :=
  if rows = [] then 0
  else if adtDates rows = [] then 0
  else if completeDates rows = [] then
    ((((adtDates rows).map (dailyTotal rows)).sum : ℕ) : ℚ) / ((adtDates rows).length : ℚ)
  else
    ((((completeDates rows).map (dailyTotal rows)).sum : ℕ) : ℚ) /
      ((completeDates rows).length : ℚ)

/-- Scenario of C4: day 0 has 24 hourly rows summing to 480 (20 each), day 1
has 8 hourly rows summing to 200 (25 each). -/
def adtExample : List (ℕ × ℕ) :=
  List.replicate 24 (0, 20) ++ List.replicate 8 (1, 25)

lemma adtDates_ne_nil {rows : List (ℕ × ℕ)} (h : rows ≠ []) : adtDates rows ≠ [] := by
  cases rows with
  | nil => exact absurd rfl h
  | cons r rest =>
    intro hd
    have : r.1 ∈ adtDates (r :: rest) :=
      List.mem_dedup.mpr (List.mem_map.mpr ⟨r, List.mem_cons_self _ _, rfl⟩)
    rw [hd] at this
    simp at this

/-- Claim C4: `calculate_adt` keeps exactly the dates with at least 20 hourly
records (conjunct 1); when at least one date is complete it returns the mean
of the complete dates' sums (conjunct 2); when no date is complete it falls
back to the mean over all dates (conjunct 3); and on the concrete scenario —
day 0 with 24 rows summing to 480, day 1 with 8 rows summing to 200 — day 1
is excluded and the result is 480 (conjunct 4). -/
theorem adt_excludes_partial_days :
    (∀ (rows : List (ℕ × ℕ)) (d : ℕ),
        d ∈ completeDates rows ↔ d ∈ adtDates rows ∧ 20 ≤ dailyCount rows d) ∧
    (∀ rows : List (ℕ × ℕ), completeDates rows ≠ [] →
        calculate_adt rows =
          ((((completeDates rows).map (dailyTotal rows)).sum : ℕ) : ℚ) /
            ((completeDates rows).length : ℚ)) ∧
    (∀ rows : List (ℕ × ℕ), rows ≠ [] → completeDates rows = [] →
        calculate_adt rows =
          ((((adtDates rows).map (dailyTotal rows)).sum : ℕ) : ℚ) /
            ((adtDates rows).length : ℚ)) ∧
    (completeDates adtExample = [0] ∧ calculate_adt adtExample = 480) := by
  refine ⟨?_, ?_, ?_, ?_, ?_⟩
  · intro rows d
    simp [completeDates, List.mem_filter]
  · intro rows hc
    have hrows : rows ≠ [] := by
      intro h
      rw [h] at hc
      exact hc rfl
    have hdates : adtDates rows ≠ [] := adtDates_ne_nil hrows
    unfold calculate_adt
    rw [if_neg hrows, if_neg hdates, if_neg hc]
  · intro rows hrows hc
    have hdates : adtDates rows ≠ [] := adtDates_ne_nil hrows
    unfold calculate_adt
    rw [if_neg hrows, if_neg hdates, if_pos hc]
  · decide
  · have h1 : completeDates adtExample = [0] := by decide
    have h2 : adtExample ≠ [] := by decide
    have h3 : adtDates adtExample ≠ [] := adtDates_ne_nil h2
    unfold calculate_adt
    rw [if_neg h2, if_neg h3, if_neg (by rw [h1]; simp), h1]
    have h4 : ([0].map (dailyTotal adtExample)).sum = 480 := by decide
    rw [h4]
    norm_num

/-- Witness for C4's fallback conjunct: a table with two incomplete days (one
row each, totals 10 and 20) yields the mean over all days. -/
theorem adt_excludes_partial_days_witness :
    calculate_adt [(0, 10), (1, 20)] =
      ((((adtDates [(0, 10), (1, 20)]).map (dailyTotal [(0, 10), (1, 20)])).sum : ℕ) : ℚ) /
        ((adtDates [(0, 10), (1, 20)]).length : ℚ) :=
  adt_excludes_partial_days.2.2.1 [(0, 10), (1, 20)] (by decide) (by decide)

/-- Embedding of the zero-activity filter shared by `filter_zero_traffic`
(traffic_transformer.py line 95) and `load_data` (data_loader.py line 439):
`df[(df[dir1_col] > 0) | (df[dir2_col] > 0)]`.  A row is represented by its
two directional volume values; pandas volume cells are (signed) integers, so
`ℤ` is used. -/
def filter_zero_traffic (rows : List (ℤ × ℤ)) : List (ℤ × ℤ) :=
  rows.filter fun r => decide (0 < r.1) || decide (0 < r.2)

/-- Claim C5: a row whose two directional volumes are both 0 never appears in the
filtered output, and a row with nonnegative volumes at least one of which is
nonzero is retained whenever it is in the input.  (Volume cells are vehicle
counts; the validator rejects negative values.) -/
theorem filter_zero_traffic_spec (rows : List (ℤ × ℤ)) (r : ℤ × ℤ)
    (h1 : 0 ≤ r.1) (h2 : 0 ≤ r.2) :
    ((r.1 = 0 ∧ r.2 = 0) → r ∉ filter_zero_traffic rows) ∧
    ((r ∈ rows ∧ (r.1 ≠ 0 ∨ r.2 ≠ 0)) → r ∈ filter_zero_traffic rows) := by
  constructor
  · rintro ⟨hz1, hz2⟩ hmem
    have := List.of_mem_filter hmem
    rw [hz1, hz2] at this
    simp at this
  · rintro ⟨hmem, hnz⟩
    refine List.mem_filter.mpr ⟨hmem, ?_⟩
    rcases hnz with h | h
    · have : 0 < r.1 := lt_of_le_of_ne h1 (Ne.symm h)
      simp [this]
    · have : 0 < r.2 := lt_of_le_of_ne h2 (Ne.symm h)
      simp [this]

/-- Witness for C5: row (1, 0) is retained by the filter on a table that also
contains an all-zero row. -/
theorem filter_zero_traffic_spec_witness :
    ((1 : ℤ), (0 : ℤ)) ∈ filter_zero_traffic [(0, 0), (1, 0)] :=
  (filter_zero_traffic_spec [(0, 0), (1, 0)] (1, 0) (by norm_num) (by norm_num)).2
    ⟨by simp, Or.inl (by norm_num)⟩

/-- Detected file structure as `_get_core_metrics_impl` consumes it: the two
direction names, the parsed speed-bin columns of each direction, the optional
posted speed, and the values the two reference-file loaders
(`load_mean_speed_from_speed_csv`, `load_85th_percentile_from_speed_csv`)
return for this structure — both return 0 when no reference file is available,
which is the trigger for the fallback computations. -/
structure TrafficStructure where
  dir1_name : String
  dir2_name : String
  dir1_bins : List (Option SpeedBin)
  dir2_bins : List (Option SpeedBin)
  posted_speed : Option ℚ
  refMeanSpeed : ℚ
  refP85 : ℚ

/-- One row of the enriched table produced by `load_data`: calendar date and
hour of the `Date/Time` value, the two directional volumes, the `Total`
column, the per-bin speed counts of each direction (aligned with the
structure's bin lists), and the four compliance columns added during
enrichment — an enriched table always carries `Dir1_Compliant` etc., so
`_get_core_metrics_impl` takes its pre-calculated compliance branch
(metrics.py lines 332-336). -/
structure EnrichedRow where
  date : ℕ
  hour : ℕ
  dir1 : ℕ
  dir2 : ℕ
  total : ℕ
  speed1 : List ℕ
  speed2 : List ℕ
  dir1Compliant : ℕ
  dir1NonCompliant : ℕ
  dir2Compliant : ℕ
  dir2NonCompliant : ℕ

/-- Column sums of a direction's speed columns: the j-th speed column's parse
result paired with `df[col].sum()` over the rows. -/
def colSums (bins : List (Option SpeedBin)) (rowCounts : List (List ℕ)) : List SpeedCol :=
  bins.enum.map fun p => (p.2, (rowCounts.map fun cs => cs.getD p.1 0).sum)

/-- Lexicographic order on (date, hour) keys; pandas `groupby` sorts its keys
ascendingly. -/
def pairLe (x y : ℕ × ℕ) : Bool :=
  decide (x.1 < y.1) || (decide (x.1 = y.1) && decide (x.2 ≤ y.2))

/-- Sorted distinct (date, hour) keys of the peak-hour `groupby`
(metrics.py line 355). -/
def hourKeys (df : List EnrichedRow) : List (ℕ × ℕ) :=
  insertionSort pairLe ((df.map fun r => (r.date, r.hour)).dedup)

/-- Summed `Total` volume of one (date, hour) group. -/
def hourSum (df : List EnrichedRow) (k : ℕ × ℕ) : ℕ :=
  ((df.filter fun r => decide (r.date = k.1) && decide (r.hour = k.2)).map
    fun r => r.total).sum

/-- First entry attaining the maximal summed volume, matching pandas `idxmax`
(first occurrence of the maximum in key order). -/
def firstMax : List ((ℕ × ℕ) × ℕ) → Option ((ℕ × ℕ) × ℕ) :=
  List.foldl
    (fun acc x =>
      match acc with
      | none => some x
      | some a => if a.2 < x.2 then some x else some a)
    none

/-- Core KPI bundle returned by `_get_core_metrics_impl`; `peak_hour = none`
models the `"N/A"` sentinel. -/
structure CoreMetrics where
  total_vehicles : ℕ
  adt : ℚ
  posted_speed : ℚ
  combined_avg_speed : ℚ
  compliance_rate : ℚ
  percentile_85th : ℚ
  peak_hour : Option ℕ
  peak_vehicles : ℕ
  dominant_direction : String
  dominant_pct : ℚ

/-- Embedding of `_get_core_metrics_impl` (metrics.py lines 301-384) on an
enriched table (which always has the `Dir*_Compliant` columns).  `speedLimit
= none` models the `speed_limit=None` default, replaced by the structure's
posted speed or 30.  The two reference-file preferences compare the loaded
value with 0 and fall back to the binned computations exactly as the source
does. -/
def get_core_metrics (df : List EnrichedRow) (s : TrafficStructure)
    (speedLimit : Option ℚ) : CoreMetrics :=
  let limit := speedLimit.getD (s.posted_speed.getD 30)
  let total_vehicles := (df.map fun r => r.total).sum
  let dir1_volume := (df.map fun r => r.dir1).sum
  let dir2_volume := (df.map fun r => r.dir2).sum
  let adt := calculate_adt (df.map fun r => (r.date, r.total))
  let combinedCols :=
    colSums s.dir1_bins (df.map fun r => r.speed1) ++
      colSums s.dir2_bins (df.map fun r => r.speed2)
  let combined_avg_speed :=
    if s.refMeanSpeed = 0 then calculate_weighted_speed combinedCols else s.refMeanSpeed
  let total_compliant :=
    (df.map fun r => r.dir1Compliant).sum + (df.map fun r => r.dir2Compliant).sum
  let total_non_compliant :=
    (df.map fun r => r.dir1NonCompliant).sum + (df.map fun r => r.dir2NonCompliant).sum
  let total_speed_readings := total_compliant + total_non_compliant
  let compliance_rate :=
    if 0 < total_speed_readings then
      (total_compliant : ℚ) / (total_speed_readings : ℚ) * 100
    else 0
  let percentile_85th :=
    if s.refP85 = 0 then calculate_85th_percentile_speed combinedCols else s.refP85
  let peak : Option ℕ × ℕ :=
    match df with
    | [] => (none, 0)
    | _ :: _ =>
      match firstMax ((hourKeys df).map fun k => (k, hourSum df k)) with
      | none => (none, 0)
      | some p => (some p.1.2, p.2)
  let dominant_direction := if dir2_volume < dir1_volume then s.dir1_name else s.dir2_name
  let dominant_pct :=
    if 0 < dir1_volume + dir2_volume then
      ((max dir1_volume dir2_volume : ℕ) : ℚ) / ((dir1_volume + dir2_volume : ℕ) : ℚ) * 100
    else 0
  { total_vehicles := total_vehicles
    adt := adt
    posted_speed := limit
    combined_avg_speed := combined_avg_speed
    compliance_rate := compliance_rate
    percentile_85th := percentile_85th
    peak_hour := peak.1
    peak_vehicles := peak.2
    dominant_direction := dominant_direction
    dominant_pct := dominant_pct }

/-- Claim C6: on the empty enriched table (zero rows, columns present) the core
metrics are total (`total_vehicles`) 0, peak hour the `"N/A"` sentinel, and
dominant percentage 0, for every structure and speed limit; the embedding is
a total function, so no exception is raised. -/
theorem core_metrics_empty_defaults (s : TrafficStructure) (speedLimit : Option ℚ) :
    (get_core_metrics [] s speedLimit).total_vehicles = 0 ∧
    (get_core_metrics [] s speedLimit).peak_hour = none ∧
    (get_core_metrics [] s speedLimit).dominant_pct = 0 :=
  ⟨rfl, rfl, rfl⟩

/-- Claim C10: whenever the two directional volume sums are equal, the dominant
direction reported is the structure's `dir2_name` (a tie is never awarded to
dir1), and when both sums are zero the dominant percentage is 0. -/
theorem dominant_tie_goes_to_dir2 (df : List EnrichedRow) (s : TrafficStructure)
    (speedLimit : Option ℚ)
    (h : (df.map fun r => r.dir1).sum = (df.map fun r => r.dir2).sum) :
    (get_core_metrics df s speedLimit).dominant_direction = s.dir2_name ∧
    ((df.map fun r => r.dir1).sum = 0 →
      (get_core_metrics df s speedLimit).dominant_pct = 0) := by
  constructor
  · show (if (df.map fun r => r.dir2).sum < (df.map fun r => r.dir1).sum then
        s.dir1_name else s.dir2_name) = s.dir2_name
    rw [h, if_neg (lt_irrefl _)]
  · intro h0
    show (if 0 < (df.map fun r => r.dir1).sum + (df.map fun r => r.dir2).sum then
        ((max (df.map fun r => r.dir1).sum (df.map fun r => r.dir2).sum : ℕ) : ℚ) /
          (((df.map fun r => r.dir1).sum + (df.map fun r => r.dir2).sum : ℕ) : ℚ) * 100
      else 0) = 0
    rw [if_neg (by omega)]

/-- Witness for C10: a single row with equal directional volumes 5 and 5
makes dir2 dominant. -/
theorem dominant_tie_goes_to_dir2_witness :
    (get_core_metrics
        [{ date := 0, hour := 0, dir1 := 5, dir2 := 5, total := 10, speed1 := [],
           speed2 := [], dir1Compliant := 0, dir1NonCompliant := 0, dir2Compliant := 0,
           dir2NonCompliant := 0 }]
        { dir1_name := "Northbound", dir2_name := "Southbound", dir1_bins := [],
          dir2_bins := [], posted_speed := none, refMeanSpeed := 0, refP85 := 0 }
        none).dominant_direction = "Southbound" :=
  (dominant_tie_goes_to_dir2
    [{ date := 0, hour := 0, dir1 := 5, dir2 := 5, total := 10, speed1 := [],
       speed2 := [], dir1Compliant := 0, dir1NonCompliant := 0, dir2Compliant := 0,
       dir2NonCompliant := 0 }]
    { dir1_name := "Northbound", dir2_name := "Southbound", dir1_bins := [],
      dir2_bins := [], posted_speed := none, refMeanSpeed := 0, refP85 := 0 }
    none rfl).1

/-- Substring test on character lists (Python's `needle in hay`). -/
def occursL (needle : List Char) : List Char → Bool
  | [] => needle.isEmpty
  | c :: rest => needle.isPrefixOf (c :: rest) || occursL needle rest

/-- Substring test on strings, via their character lists (Lean's own string
search functions do not reduce in the kernel). -/
def occursIn (needle hay : String) : Bool :=
  occursL needle.data hay.data

/-- Split of a character list at every comma (Python's `line.split(",")`). -/
def splitOnComma : List Char → List (List Char)
  | [] => [[]]
  | c :: rest =>
    let r := splitOnComma rest
    if c == ',' then [] :: r
    else
      match r with
      | [] => [[c]]
      | x :: xs => (c :: x) :: xs

/-- Python's whitespace test for `str.strip()` (the characters occurring in
these files). -/
def isSpaceChar (c : Char) : Bool :=
  c == ' ' || c == '\t' || c == '\n' || c == '\r'

/-- Removal of leading and trailing characters satisfying a predicate
(Python's `str.strip(chars)`). -/
def stripWith (p : Char → Bool) (l : List Char) : List Char :=
  ((l.dropWhile p).reverse.dropWhile p).reverse

/-- Cell clean-up `col.strip().strip('"')` applied to every header cell
(data_loader.py line 215 / traffic_parser.py line 165). -/
def stripCell (s : String) : String :=
  String.mk (stripWith (fun c => c == '"') (stripWith isSpaceChar s.data))

/-- Header-row search of `detect_file_structure` (data_loader.py lines
206-212): the first scanned line containing `"Date/Time"` together with its
index, which becomes `metadata_rows`. -/
def findColumnHeaderRow (headerLines : List String) : Option (String × ℕ) :=
  (headerLines.enum.find? fun p => occursIn "Date/Time" p.2).map fun p => (p.2, p.1)

/-- Direction inference (data_loader.py lines 221-226): `"Northbound"` as a
substring of the concatenated column names selects {Northbound, Southbound},
otherwise {Eastbound, Westbound}. -/
def detect_traffic_directions (columns : List String) : String × String :=
  if occursL "Northbound".data (columns.map String.data).flatten then
    ("Northbound", "Southbound")
  else ("Eastbound", "Westbound")

/-- Speed-column classification (data_loader.py lines 232-233): columns
containing `"MPH - <dir>"` with one or two interior spaces. -/
def speedColsFor (columns : List String) (dir : String) : List String :=
  columns.filter fun c => occursIn ("MPH - " ++ dir) c || occursIn ("MPH  - " ++ dir) c

/-- Volume-column classification (data_loader.py lines 293-308): the first of
the patterns `"Volume - <dir>"`, `<dir>`, `"<dir> Volume"` that occurs
verbatim in the column list; `none` when no pattern matches — the source then
returns the structure with this field unset. -/
def volumeColFor (columns : List String) (dir : String) : Option String :=
  ["Volume - " ++ dir, dir, dir ++ " Volume"].find? fun p => columns.contains p

/-- Detected structure record; only the fields that participate in the
detection success/failure logic and the `load_data` required-column check
are modelled (metadata text and class columns cannot affect either). -/
structure FileStructure where
  metadata_rows : ℕ
  columns : List String
  dir1_name : String
  dir2_name : String
  dir1_speed_cols : List String
  dir2_speed_cols : List String
  dir1_volume_col : Option String
  dir2_volume_col : Option String
deriving DecidableEq, Repr

/-- Embedding of `detect_file_structure` (data_loader.py lines 168-334) on
the scanned header lines (the first ≤ 15 lines of the file): `none` when no
line contains `"Date/Time"` (the function body falls through and returns
`None`); otherwise the structure assembled from the split header row — even
when no volume column could be classified. -/
def detect_file_structure (headerLines : List String) : Option FileStructure :=
  match findColumnHeaderRow headerLines with
  | none => none
  | some (line, idx) =>
    let columns := (splitOnComma line.data).map fun l => stripCell (String.mk l)
    let dirs := detect_traffic_directions columns
    some
      { metadata_rows := idx
        columns := columns
        dir1_name := dirs.1
        dir2_name := dirs.2
        dir1_speed_cols := speedColsFor columns dirs.1
        dir2_speed_cols := speedColsFor columns dirs.2
        dir1_volume_col := volumeColFor columns dirs.1
        dir2_volume_col := volumeColFor columns dirs.2 }

/-- File access composed with detection: `none` for the file contents models
`open()` raising (missing/unreadable file); the `except Exception` in
`detect_file_structure` (data_loader.py lines 329-334) turns any such error
into a `None` result instead of propagating it. -/
def detectFromFile (fileContents : Option (List String)) : Option FileStructure :=
  match fileContents with
  | none => none
  | some lines => detect_file_structure lines

/-- Failure kinds of the loading pipeline: a propagating IO error (which the
code never produces, since detection catches every exception), the
`FileStructureError` raised when detection returns `None` (data_loader.py
lines 340-343), and the `DataValidationError` raised when a required column
is missing (lines 361-368). -/
inductive LoadFailure where
  | fileAccess
  | fileStructure
  | dataValidation
deriving DecidableEq, Repr

/-- Embedding of the failure logic of `load_data` (data_loader.py lines
337-368): detection failure raises `FileStructureError`; then the required
columns `["Date/Time", dir1_volume_col, dir2_volume_col]` are checked against
the loaded dataframe's columns (an unset volume column is `None`, which is
never in `df.columns`, so it always counts as missing) and any missing entry
raises `DataValidationError`.  The dataframe's columns are given directly
(the CSV body read is not modelled; its own failure kinds are not part of
these claims). -/
def load_data (fileContents : Option (List String)) (dfColumns : List String) :
    Except LoadFailure FileStructure :=
  match detectFromFile fileContents with
  | none => Except.error LoadFailure.fileStructure
  | some s =>
    let required : List (Option String) := [some "Date/Time", s.dir1_volume_col, s.dir2_volume_col]
    let missing := required.filter fun c =>
      match c with
      | some name => !(dfColumns.contains name)
      | none => true
    if missing = [] then Except.ok s else Except.error LoadFailure.dataValidation

/-- Header lines of the C7 counterexample: the `"Date/Time"` header row is
present and speed columns exist, but no column matches any volume pattern. -/
def headerLines7 : List String :=
  ["\"Location\",\"Test Site\"",
   "\"Date/Time\",\"25-29 MPH - Northbound\",\"30-34 MPH - Northbound\""]

/-- Dataframe columns of the C7 counterexample (the columns the CSV body
yields for `headerLines7`). -/
def dfCols7 : List String :=
  ["Date/Time", "25-29 MPH - Northbound", "30-34 MPH - Northbound"]

/-- Structure that `detect_file_structure` returns for `headerLines7`: a
partial structure with both volume-column fields unset. -/
def s7 : FileStructure :=
  { metadata_rows := 1
    columns := ["Date/Time", "25-29 MPH - Northbound", "30-34 MPH - Northbound"]
    dir1_name := "Northbound"
    dir2_name := "Southbound"
    dir1_speed_cols := ["25-29 MPH - Northbound", "30-34 MPH - Northbound"]
    dir2_speed_cols := []
    dir1_volume_col := none
    dir2_volume_col := none }

/-- Counterexample for C7: on a file whose header row is found but whose
volume columns cannot be classified, `detect_file_structure` returns a
partial structure with unset volume fields (so a partial structure is both
returned and used), and the pipeline fails with the data-validation kind,
not the structure-not-recognized kind. -/
theorem partial_structure_counterexample :
    detect_file_structure headerLines7 = some s7 ∧
    s7.dir1_volume_col = none ∧ s7.dir2_volume_col = none ∧
    load_data (some headerLines7) dfCols7 = Except.error LoadFailure.dataValidation ∧
    load_data (some headerLines7) dfCols7 ≠ Except.error LoadFailure.fileStructure := by
  refine ⟨by decide, rfl, rfl, rfl, ?_⟩
  intro h
  injection h with h3
  exact LoadFailure.noConfusion h3

/-- Claim C7 (amended): when the header row is absent from the scanned window,
detection returns no structure and `load_data` fails with the
structure-not-recognized kind; but when a directional volume column cannot be
classified, `detect_file_structure` still returns a (partial) structure whose
volume field is unset, and `load_data` then fails with the data-validation
kind at the required-column check. -/
theorem structure_failure_kinds :
    (∀ (fileContents : Option (List String)) (dfColumns : List String),
        detectFromFile fileContents = none →
        load_data fileContents dfColumns = Except.error LoadFailure.fileStructure) ∧
    (∀ headerLines : List String,
        findColumnHeaderRow headerLines = none →
        detect_file_structure headerLines = none) ∧
    (∀ (fileContents : Option (List String)) (dfColumns : List String) (s : FileStructure),
        detectFromFile fileContents = some s → s.dir1_volume_col = none →
        load_data fileContents dfColumns = Except.error LoadFailure.dataValidation) := by
  refine ⟨?_, ?_, ?_⟩
  · intro fc dfc h
    simp [load_data, h]
  · intro hl h
    simp [detect_file_structure, h]
  · intro fc dfc s hdet hvol
    have hmem : (none : Option String) ∈
        ([some "Date/Time", s.dir1_volume_col, s.dir2_volume_col].filter fun c =>
          match c with
          | some name => !(dfc.contains name)
          | none => true) := by
      refine List.mem_filter.mpr ⟨?_, rfl⟩
      rw [hvol]
      simp
    have hne : ([some "Date/Time", s.dir1_volume_col, s.dir2_volume_col].filter fun c =>
        match c with
        | some name => !(dfc.contains name)
        | none => true) ≠ [] := List.ne_nil_of_mem hmem
    simp only [load_data, hdet]
    rw [if_neg hne]

/-- Witness for C7's amended statement, third conjunct, at the concrete
partial-structure input. -/
theorem structure_failure_kinds_witness :
    load_data (some headerLines7) ["Date/Time"] = Except.error LoadFailure.dataValidation :=
  structure_failure_kinds.2.2 (some headerLines7) ["Date/Time"] s7 (by decide) rfl

/-- Counterexample for C8: for a missing/unreadable file (`open()` raising,
modelled by `none` file contents), detection swallows the error and returns
`None`, so loading fails with the structure-not-recognized kind — not with a
file-access/IO kind. -/
theorem missing_file_counterexample :
    detectFromFile none = none ∧
    load_data none dfCols7 = Except.error LoadFailure.fileStructure ∧
    load_data none dfCols7 ≠ Except.error LoadFailure.fileAccess := by
  refine ⟨rfl, rfl, ?_⟩
  intro h
  injection h with h3
  exact LoadFailure.noConfusion h3

/-- Claim C8 (amended): for a missing or unreadable input file,
`detect_file_structure` catches the IO error and returns `None`, so
`load_data` raises the structure-not-recognized kind (`FileStructureError`)
for every dataframe column list; no distinct file-access failure kind is
surfaced. -/
theorem missing_file_yields_structure_error (dfColumns : List String) :
    load_data none dfColumns = Except.error LoadFailure.fileStructure := rfl

end TrafficStudies
